import Mathlib

/-
Shallow embedding of MLBox's hyper-parameter optimiser
(python-package/mlbox/optimisation/optimiser.py) over which the
specification's claims about pipeline assembly, caching, task inference,
cross-validated evaluation and search-space translation are settled.

External collaborators (sklearn's cross_val_score / Pipeline.set_params and
hyperopt's fmin) are passed in as function parameters, so every statement
quantifies over their possible deterministic behaviours; everything the
optimiser itself computes is translated directly from the source.
-/

set_option autoImplicit false

namespace MLBox

/-- Values that can appear in a parameter dictionary or a search space:
strings (e.g. strategy names), integers (e.g. indices returned by the
sampler for "choice" variables) and rationals (modelling floats). -/
inductive PValue
  | str (s : String)
  | num (n : Int)
  | real (q : Rat)
  deriving DecidableEq, Repr

/-- A flat parameter dictionary: ordered association list of
("stage__param", value) pairs, modelling a Python dict (keys unique,
first binding wins on lookup). -/
abbrev Params := List (String × PValue)

/-- First-match association-list lookup, modelling Python dict access. -/
def alistLookup {α : Type} : List (String × α) → String → Option α
  | [], _ => Option.none
  | q :: rest, k => if q.1 = k then some q.2 else alistLookup rest k

/-- Membership test for a key, modelling Python's `k in d`. -/
def hasKey {α : Type} (l : List (String × α)) (k : String) : Bool :=
  (alistLookup l k).isSome

/-- Model of Python's `s.startswith(pre)`. -/
def strStartsWith (s pre : String) : Bool :=
  pre.data.isPrefixOf s.data

/-- Characters of a string before the first occurrence of "__"
(the whole string when "__" does not occur). -/
def splitHead : List Char → List Char
  | [] => []
  | '_' :: '_' :: _ => []
  | c :: rest => c :: splitHead rest

/-- Model of Python's `p.split("__")[0]`: the stage tag of a key. -/
def tagOf (p : String) : String :=
  ⟨splitHead p.data⟩

/-- The two supervised tasks the optimiser distinguishes
(optimiser.py lines 172 and 240). -/
inductive Task
  | classification
  | regression
  deriving DecidableEq, Repr

/-- The concrete stage classes instantiated by `evaluate`
(optimiser.py lines 159-160, 187, 195, 206, 251, 259, 270). -/
inductive Stage
  | NA_encoder
  | Categorical_encoder
  | Clf_feature_selector
  | Reg_feature_selector
  | StackingClassifier
  | StackingRegressor
  | Classifier
  | Regressor
  deriving DecidableEq, Repr

/-- Task-appropriate feature selector (lines 195 / 259). -/
def fsStage : Task → Stage
  | Task.classification => Stage.Clf_feature_selector
  | Task.regression => Stage.Reg_feature_selector

/-- Task-appropriate stacking layer (lines 206 / 270). -/
def stckStage : Task → Stage
  | Task.classification => Stage.StackingClassifier
  | Task.regression => Stage.StackingRegressor

/-- Task-appropriate terminal estimator (lines 187 / 251). -/
def estStage : Task → Stage
  | Task.classification => Stage.Classifier
  | Task.regression => Stage.Regressor

/-- The target column of the train dictionary, tagged by its dtype:
`ints` models dtype 'int' (classification), `floats` models dtype 'float'
(regression), `strs` models any other dtype (e.g. object/string). -/
inductive Target
  | ints (xs : List Int)
  | floats (xs : List Rat)
  | strs (xs : List String)
  deriving DecidableEq, Repr

/-- The `df` argument of `evaluate`: keys "train" and "target". -/
structure Dataset where
  train : List (List Rat)
  target : Target
  deriving DecidableEq, Repr

/-- The optimiser's `self.scoring` attribute: `none` models Python None,
`str` a scoring name, `aucScorer` the `make_scorer`-wrapped roc_auc
callable built at lines 219-221, `callable` any other user-supplied
scorer object. -/
inductive Scoring
  | none
  | str (s : String)
  | aucScorer
  | callable (id : Nat)
  deriving DecidableEq, Repr

/-- The optimiser object: the five constructor attributes
(optimiser.py lines 77-81). -/
structure Optimiser where
  scoring : Scoring
  n_folds : Nat
  random_state : Int
  to_path : String
  verbose : Bool
  deriving DecidableEq, Repr

/-- Recognised classification scorings (line 225). -/
def clfList : List String :=
  ["accuracy", "roc_auc", "f1", "log_loss", "precision", "recall"]

/-- Recognised regression scorings (line 282). -/
def regList : List String :=
  ["mean_absolute_error", "mean_squared_error", "median_absolute_error", "r2"]

/-- Rewriting of `self.scoring` in the classification branch
(lines 212-234), returning the new attribute value together with the
`auc` flag set at line 218. -/
def clfScoringUpdate : Scoring → Scoring × Bool
  | Scoring.none => (Scoring.str "log_loss", false)
  | Scoring.str s =>
      if s = "roc_auc" then (Scoring.aucScorer, true)
      else if s ∈ clfList then (Scoring.str s, false)
      else (Scoring.str "log_loss", false)
  | sc => (sc, false)

/-- Rewriting of `self.scoring` in the regression branch (lines 276-292);
the `auc` flag stays false there. -/
def regScoringUpdate : Scoring → Scoring
  | Scoring.none => Scoring.str "mean_squared_error"
  | Scoring.str s =>
      if s ∈ regList then Scoring.str s else Scoring.str "mean_squared_error"
  | sc => sc

/-- Number of occurrences of class `c` in the target: one entry of
`df['target'].value_counts()` (line 176). -/
def countOf (tgt : List Int) (c : Int) : Nat :=
  tgt.count c

/-- Classes whose frequency is strictly below the fold count:
`counts[counts < self.n_folds].index` (line 177). -/
def classes_to_drop (tgt : List Int) (n : Nat) : List Int :=
  tgt.dedup.filter (fun c => countOf tgt c < n)

/-- Row positions whose class is deficient:
`df['target'][mask_to_drop].index` (lines 178-179). -/
def indexes_to_drop (tgt : List Int) (n : Nat) : List Nat :=
  (List.range tgt.length).filter (fun i => tgt.getD i 0 ∈ classes_to_drop tgt n)

/-- Remove the rows whose position (counted from `k`) is listed in `drops`. -/
def dropIdxFrom {α : Type} (drops : List Nat) : List α → Nat → List α
  | [], _ => []
  | a :: l, k => if k ∈ drops then dropIdxFrom drops l (k + 1)
                 else a :: dropIdxFrom drops l (k + 1)

/-- Model of pandas `.drop(indexes)` on a RangeIndex-ed frame/series:
removes the rows at the listed positions (lines 413-414). -/
def dropIdx {α : Type} (xs : List α) (drops : List Nat) : List α :=
  dropIdxFrom drops xs 0

/-- Keys of the candidate dictionary (`params.keys()`); `[]` for None. -/
def keysOf : Option Params → List String
  | Option.none => []
  | some ps => ps.map Prod.fst

/-- Whether a feature selector is instantiated: some key starts with
"fs__" (lines 191-197 / 255-261). -/
def fsActivated : Option Params → Bool
  | Option.none => false
  | some ps => ps.any (fun q => strStartsWith q.1 "fs__")

/-- Tags of the stacking layers collected into the `STCK` dict:
`p.split("__")[0]` for every key starting with "stck"
(lines 201-208 / 265-272). -/
def stckTags : Option Params → List String
  | Option.none => []
  | some ps => ((ps.map Prod.fst).filter (fun p => strStartsWith p "stck")).map tagOf

/-- Distinct stacking tags in ascending order: `np.sort(list(STCK))`
(line 338). -/
def sortedStck (params : Option Params) : List String :=
  List.insertionSort (· ≤ ·) (stckTags params).dedup

/-- The caching decision of lines 304-329: true when the categorical
encoder strategy is "entity_embedding", or a feature selector is
instantiated and the candidate's "fs__strategy" differs from "variance",
or at least one stacking layer is present. -/
def cacheFlag (params : Option Params) : Bool :=
  let cache := false
  let cache :=
    match params with
    | some ps =>
        match alistLookup ps "ce__strategy" with
        | some v => if v = PValue.str "entity_embedding" then true else cache
        | Option.none => cache
    | Option.none => cache
  let cache :=
    if fsActivated params then
      match params with
      | some ps =>
          match alistLookup ps "fs__strategy" with
          | some v => if v ≠ PValue.str "variance" then true else cache
          | Option.none => cache
      | Option.none => cache
    else cache
  if sortedStck params ≠ [] then true else cache

/-- The ordered pipeline of lines 302 and 331-341:
[("ne", ...), ("ce", ...)] then the optional feature selector, then the
stacking layers sorted by tag, then ("est", ...). -/
def buildPipe (task : Task) (params : Option Params) : List (String × Stage) :=
  let pipe := [("ne", Stage.NA_encoder), ("ce", Stage.Categorical_encoder)]
  let pipe := if fsActivated params then pipe ++ [("fs", fsStage task)] else pipe
  let pipe := pipe ++ (sortedStck params).map (fun t => (t, stckStage task))
  pipe ++ [("est", estStage task)]

/-- Errors `evaluate` can raise: the task-detection ValueError (line 295),
the splitter constructors' rejection of fewer than two splits
(StratifiedKFold/KFold at lines 181/245), and the set_params ValueError
(line 425). -/
inductive EvalErr
  | invalidInput
  | invalidFolds
  | invalidPipelineParams
  deriving DecidableEq, Repr

/-- Task inference from the target dtype (lines 172, 240, 294-296). -/
def taskOf : Target → Except EvalErr Task
  | Target.ints _ => Except.ok Task.classification
  | Target.floats _ => Except.ok Task.regression
  | Target.strs _ => Except.error EvalErr.invalidInput

/-- Whether the task's splitter is StratifiedKFold (line 181) rather than
KFold (line 245). -/
def cvStratified : Task → Bool
  | Task.classification => true
  | Task.regression => false

/-- A fold score: negative infinity (the failure sentinel of line 421) or
a finite value. -/
inductive Score
  | negInf
  | val (q : Rat)
  deriving DecidableEq, Repr

/-- Arithmetic mean of the fold scores: `np.mean(scores)` (line 417). -/
def meanScore (ss : List Rat) : Score :=
  Score.val (ss.sum / (ss.length : Rat))

/-- Everything the call to sklearn's `cross_val_score` receives
(lines 412-416): the assembled pipeline with its optional cache directory
(`memory` of line 344), the candidate applied by set_params, the
class-filtered data, the resolved scoring and the configured splitter. -/
structure CVInput where
  pipe : List (String × Stage)
  memory : Option String
  params : Option Params
  X : List (List Rat)
  y : Target
  scoring : Scoring
  cv_stratified : Bool
  n_splits : Nat
  shuffle : Bool
  random_state : Int

/-- What `evaluate` computes from the cross-validation outcome:
the per-fold scores, their mean (the returned score, line 453) and the
failure condition tested at line 428. -/
structure EvalResult where
  scores : List Score
  score : Score
  failed : Bool
  deriving DecidableEq, Repr

/-- Shared tail of both task branches of `evaluate` (lines 298-453):
pipeline creation with optional caching, parameter application
(`set_params`, lines 356-366 — failure raises the ValueError of line 425),
cross-validation inside the bare try/except of lines 409-422, and the
roc_auc display-name restore of lines 442-443.  The external
`cross_val_score` is the function `cvs` (None models a raised exception);
the external `set_params` success test is `set_ok`. -/
def fitStep (self1 : Optimiser)
    (set_ok : List (String × Stage) → Params → Bool)
    (cvs : CVInput → Option (List Rat))
    (params : Option Params) (pipe : List (String × Stage))
    (X : List (List Rat)) (y : Target) (strat auc : Bool) :
    Except EvalErr EvalResult × Optimiser :=
  let cache := cacheFlag params
  let okSet :=
    match params with
    | Option.none => true
    | some ps => set_ok pipe ps
  if okSet then
    let ci : CVInput :=
      { pipe := pipe
        memory := if cache then some self1.to_path else Option.none
        params := params
        X := X
        y := y
        scoring := self1.scoring
        cv_stratified := strat
        n_splits := self1.n_folds
        shuffle := true
        random_state := self1.random_state }
    let res :=
      match cvs ci with
      | some ss =>
          { scores := ss.map Score.val
            score := meanScore ss
            failed := decide (meanScore ss = Score.negInf) }
      | Option.none =>
          { scores := List.replicate self1.n_folds Score.negInf
            score := Score.negInf
            failed := true }
    (Except.ok res, if auc then { self1 with scoring := Scoring.str "roc_auc" } else self1)
  else
    (Except.error EvalErr.invalidPipelineParams, self1)

/-- The `evaluate` method (optimiser.py lines 106-453).  Returns the
result together with the optimiser object after the call (its `scoring`
attribute is mutated in place by the source). -/
def Optimiser.evaluate (self : Optimiser)
    (set_ok : List (String × Stage) → Params → Bool)
    (cvs : CVInput → Option (List Rat))
    (params : Option Params) (df : Dataset) :
    Except EvalErr EvalResult × Optimiser :=
  match df.target with
  | Target.ints tgt =>
      if self.n_folds < 2 then (Except.error EvalErr.invalidFolds, self)
      else
        let drops := indexes_to_drop tgt self.n_folds
        let upd := clfScoringUpdate self.scoring
        fitStep { self with scoring := upd.1 } set_ok cvs params
          (buildPipe Task.classification params)
          (dropIdx df.train drops) (Target.ints (dropIdx tgt drops))
          (cvStratified Task.classification) upd.2
  | Target.floats tgt =>
      if self.n_folds < 2 then (Except.error EvalErr.invalidFolds, self)
      else
        fitStep { self with scoring := regScoringUpdate self.scoring } set_ok cvs params
          (buildPipe Task.regression params)
          (dropIdx df.train ([] : List Nat)) (Target.floats (dropIdx tgt ([] : List Nat)))
          (cvStratified Task.regression) false
  | Target.strs _ => (Except.error EvalErr.invalidInput, self)

/-- One entry of the declarative search space: the optional "search"
strategy and the optional "space" list of values. -/
structure SpaceEntry where
  search : Option String
  space : Option (List PValue)
  deriving DecidableEq, Repr

/-- The `space` argument of `optimise`. -/
abbrev SearchSpace := List (String × SpaceEntry)

/-- Errors `optimise` can raise: the missing-"space" ValueError
(line 545), the unknown-strategy ValueError (line 559), and an index or
key error in the final domain translation (lines 574-581). -/
inductive OptError
  | invalidSearchSpace (p : String)
  | invalidStrategy (p : String)
  | translateFailure
  deriving DecidableEq, Repr

/-- Numeric view of a value, used for the `np.sort` bounds of a
"uniform" entry (lines 553-554); uniform spaces are numeric. -/
def pvRat : PValue → Rat
  | PValue.num n => (n : Rat)
  | PValue.real q => q
  | PValue.str _ => 0

instance pvRatLEDec : DecidableRel (fun a b : PValue => pvRat a ≤ pvRat b) :=
  fun a b => inferInstanceAs (Decidable (pvRat a ≤ pvRat b))

/-- `np.sort` on the "space" list of a "uniform" entry. -/
def np_sort_pv (l : List PValue) : List PValue :=
  List.insertionSort (fun a b => pvRat a ≤ pvRat b) l

/-- Sampler descriptions built for hyperopt: `hp.uniform(p, lo, hi)` or
`hp.choice(p, vals)` (lines 552-565). -/
inductive HP
  | uniform (lo hi : PValue)
  | choice (vals : List PValue)
  deriving DecidableEq, Repr

/-- Translation of one space entry into its hyperopt description
(lines 544-565): missing "space" raises, "uniform" takes the sorted
extremes of the value list, "choice" (also the default when "search"
is absent) keeps the value list, anything else raises. -/
def hpOf (p : String) (e : SpaceEntry) : Except OptError HP :=
  match e.space with
  | Option.none => Except.error (OptError.invalidSearchSpace p)
  | some vals =>
      match e.search with
      | some s =>
          if s = "uniform" then
            Except.ok (HP.uniform ((np_sort_pv vals).headD (PValue.num 0))
                                  ((np_sort_pv vals).getLastD (PValue.num 0)))
          else if s = "choice" then Except.ok (HP.choice vals)
          else Except.error (OptError.invalidStrategy p)
      | Option.none => Except.ok (HP.choice vals)

/-- The hyperopt space built from the whole specification (lines 540-565). -/
def buildHyperSpace : SearchSpace → Except OptError (List (String × HP))
  | [] => Except.ok []
  | (p, e) :: rest =>
      match hpOf p e with
      | Except.error err => Except.error err
      | Except.ok h =>
          match buildHyperSpace rest with
          | Except.error err => Except.error err
          | Except.ok hs => Except.ok ((p, h) :: hs)

/-- Model of Python list indexing `vals[v]` with an integer `v`
(negative indices count from the end; out of range raises). -/
def pyIndex (vals : List PValue) (v : PValue) : Option PValue :=
  match v with
  | PValue.num n =>
      if 0 ≤ n then vals.get? n.toNat
      else if (-n).toNat ≤ vals.length then vals.get? (vals.length - (-n).toNat)
      else Option.none
  | _ => Option.none

/-- Domain translation of one (key, sampled value) pair returned by fmin
(lines 574-581): a "choice" entry — also the default when "search" is
absent — replaces the sampler's index by `space[p]["space"][v]`; any
declared non-"choice" strategy passes the value through unchanged. -/
def translateOne (sp : SearchSpace) (pv : String × PValue) : Option (String × PValue) :=
  match alistLookup sp pv.1 with
  | Option.none => Option.none
  | some e =>
      match e.search with
      | some s =>
          if s = "choice" then
            match e.space with
            | some vals => (pyIndex vals pv.2).map (fun w => (pv.1, w))
            | Option.none => Option.none
          else some pv
      | Option.none =>
          match e.space with
          | some vals => (pyIndex vals pv.2).map (fun w => (pv.1, w))
          | Option.none => Option.none

/-- Map a fallible function over a list, failing when any element fails
(models a Python loop whose body may raise). -/
def optionMap {α β : Type} (f : α → Option β) : List α → Option (List β)
  | [] => some []
  | a :: l =>
      match f a, optionMap f l with
      | some b, some bs => some (b :: bs)
      | _, _ => Option.none

/-- The back-translation loop over `best_params.items()` (lines 574-581). -/
def translateBest (sp : SearchSpace) (best : List (String × PValue)) :
    Option (List (String × PValue)) :=
  optionMap (translateOne sp) best

/-- The `optimise` method (lines 455-592).  The external
sequential-model-based search primitive (`fmin` with `tpe.suggest`,
lines 567-570, whose objective calls `evaluate` through a sign flip) is
the parameter `fmin`: given the built space and the budget it returns the
best vector in sampled form. -/
def Optimiser.optimise (_self : Optimiser)
    (fmin : List (String × HP) → Nat → List (String × PValue))
    (space : Option SearchSpace) (max_evals : Nat) :
    Except OptError (List (String × PValue)) :=
  match space with
  | Option.none => Except.ok []
  | some sp =>
      if sp.length = 0 then Except.ok []
      else
        match buildHyperSpace sp with
        | Except.error e => Except.error e
        | Except.ok hyper_space =>
            match translateBest sp (fmin hyper_space max_evals) with
            | some best => Except.ok best
            | Option.none => Except.error OptError.translateFailure

/-! ### Helper lemmas -/

theorem dropIdxFrom_nil {α : Type} (xs : List α) (k : Nat) :
    dropIdxFrom ([] : List Nat) xs k = xs := by
  induction xs generalizing k with
  | nil => rfl
  | cons a l ih => simp [dropIdxFrom, ih]

theorem mem_dropIdxFrom {α : Type} {drops : List Nat} {c : α} :
    ∀ {xs : List α} {k : Nat}, c ∈ dropIdxFrom drops xs k →
      ∃ i, ∃ hi : i < xs.length, xs.get ⟨i, hi⟩ = c ∧ (k + i) ∉ drops := by
  intro xs
  induction xs with
  | nil => intro k hc; simp [dropIdxFrom] at hc
  | cons a l ih =>
      intro k hc
      by_cases hk : k ∈ drops
      · rw [dropIdxFrom, if_pos hk] at hc
        obtain ⟨i, hi, hget, hnot⟩ := ih hc
        refine ⟨i + 1, by simpa using Nat.succ_lt_succ hi, ?_, ?_⟩
        · simpa using hget
        · have : k + (i + 1) = k + 1 + i := by omega
          rw [this]; exact hnot
      · rw [dropIdxFrom, if_neg hk] at hc
        rcases List.mem_cons.mp hc with hca | hcl
        · exact ⟨0, by simp, by simpa using hca.symm, by simpa using hk⟩
        · obtain ⟨i, hi, hget, hnot⟩ := ih hcl
          refine ⟨i + 1, by simpa using Nat.succ_lt_succ hi, ?_, ?_⟩
          · simpa using hget
          · have : k + (i + 1) = k + 1 + i := by omega
            rw [this]; exact hnot

theorem mem_indexes_to_drop (tgt : List Int) (n i : Nat) (h : i < tgt.length) :
    i ∈ indexes_to_drop tgt n ↔ countOf tgt (tgt.get ⟨i, h⟩) < n := by
  unfold indexes_to_drop
  rw [List.mem_filter]
  have hrange : i ∈ List.range tgt.length := List.mem_range.mpr h
  have hgetD : tgt.getD i 0 = tgt.get ⟨i, h⟩ := List.getD_eq_get tgt 0 h
  simp only [hrange, true_and, decide_eq_true_eq, hgetD]
  unfold classes_to_drop
  rw [List.mem_filter]
  have hmem : tgt.get ⟨i, h⟩ ∈ tgt.dedup := List.mem_dedup.mpr (tgt.get_mem i h)
  simp [hmem]

/-! ### Claims -/

/-- C1: the assembled pipeline is wrapped in a caching layer
(`cache = True`, hence `Pipeline(pipe, memory=self.to_path)`) if and only
if the candidate sets "ce__strategy" to "entity_embedding", or a feature
selector is activated and the candidate's "fs__strategy" is present and
differs from "variance", or at least one stacking layer is activated. -/
theorem claim_C1_needs_caching (params : Option Params) :
    cacheFlag params = true ↔
      ((∃ ps, params = some ps ∧
          alistLookup ps "ce__strategy" = some (PValue.str "entity_embedding"))
       ∨ (fsActivated params = true ∧
          ∃ ps v, params = some ps ∧ alistLookup ps "fs__strategy" = some v ∧
            v ≠ PValue.str "variance")
       ∨ sortedStck params ≠ []) := by
  cases params with
  | none => simp [cacheFlag, fsActivated, sortedStck, stckTags, List.insertionSort]
  | some ps =>
      rcases hce : alistLookup ps "ce__strategy" with _ | v <;>
        rcases hfs : alistLookup ps "fs__strategy" with _ | w <;>
        cases hact : fsActivated (some ps) <;>
        by_cases hst : sortedStck (some ps) = [] <;>
        simp [cacheFlag, hce, hfs, hact, hst] <;>
        first
          | tauto
          | (split_ifs <;> simp_all)

/-- C10: when a feature selector is activated by some "fs__" key but the
specific key "fs__strategy" is absent, the feature-selector test of
lines 317-324 contributes nothing: caching is decided by the
categorical-encoder and stacking conditions alone. -/
theorem claim_C10_fs_strategy_absent (ps : Params)
    (h1 : fsActivated (some ps) = true)
    (h2 : hasKey ps "fs__strategy" = false) :
    cacheFlag (some ps) =
      (decide (alistLookup ps "ce__strategy" = some (PValue.str "entity_embedding"))
        || decide (sortedStck (some ps) ≠ [])) := by
  have hnone : alistLookup ps "fs__strategy" = Option.none := by
    unfold hasKey at h2
    cases h : alistLookup ps "fs__strategy" with
    | none => rfl
    | some v => rw [h] at h2; simp at h2
  rcases hce : alistLookup ps "ce__strategy" with _ | v <;>
    by_cases hst : sortedStck (some ps) = [] <;>
    simp [cacheFlag, h1, hnone, hce, hst] <;>
    split_ifs <;> simp_all

theorem claim_C10_fs_strategy_absent_witness :
    cacheFlag (some [("fs__threshold", PValue.num 0)]) =
      (decide (alistLookup [("fs__threshold", PValue.num 0)] "ce__strategy" =
          some (PValue.str "entity_embedding"))
        || decide (sortedStck (some [("fs__threshold", PValue.num 0)]) ≠ [])) :=
  claim_C10_fs_strategy_absent [("fs__threshold", PValue.num 0)] (by decide) (by decide)

/-- C6: with no "fs__" and no "stck" key the assembled pipeline is
exactly [NA-encoder, categorical encoder, estimator]; in general the
feature selector and then the stacking layers, sorted by tag, sit between
the categorical encoder and the terminal estimator. -/
theorem claim_C6_pipeline_shape (task : Task) (params : Option Params) :
    ((∀ k ∈ keysOf params,
        strStartsWith k "fs__" = false ∧ strStartsWith k "stck" = false) →
      buildPipe task params =
        [("ne", Stage.NA_encoder), ("ce", Stage.Categorical_encoder),
         ("est", estStage task)])
  ∧ buildPipe task params =
      [("ne", Stage.NA_encoder), ("ce", Stage.Categorical_encoder)]
        ++ (if fsActivated params then [("fs", fsStage task)] else [])
        ++ (sortedStck params).map (fun t => (t, stckStage task))
        ++ [("est", estStage task)]
  ∧ List.Sorted (· ≤ ·) (sortedStck params) := by
  refine ⟨?_, ?_, ?_⟩
  · intro hk
    have hfa : fsActivated params = false := by
      cases params with
      | none => rfl
      | some ps =>
          simp only [fsActivated, List.any_eq_false]
          intro q hq
          exact fun hh => by simpa [hh] using (hk q.1 (List.mem_map_of_mem Prod.fst hq)).1
    have hstck : stckTags params = [] := by
      cases params with
      | none => rfl
      | some ps =>
          simp only [stckTags, List.map_eq_nil, List.filter_eq_nil]
          intro p hp
          exact fun hh => by simpa [hh] using (hk p hp).2
    simp [buildPipe, hfa, sortedStck, hstck, List.insertionSort]
  · cases hfa : fsActivated params <;> simp [buildPipe, hfa]
  · exact List.sorted_insertionSort _ _

theorem claim_C6_pipeline_shape_witness :
    buildPipe Task.classification (some [("est__max_depth", PValue.num 4)]) =
      [("ne", Stage.NA_encoder), ("ce", Stage.Categorical_encoder),
       ("est", Stage.Classifier)] :=
  (claim_C6_pipeline_shape Task.classification
    (some [("est__max_depth", PValue.num 4)])).1 (by decide)

/-- C2: a classification row is listed in `indexes_to_drop` exactly when
its class occurs strictly fewer times than the fold count; consequently a
class value surviving the drop occurs at least fold-count many times; and
the regression branch, which drops the empty index list, removes no row
from features or target. -/
theorem claim_C2_class_deficiency (tgt : List Int) (n i : Nat) (h : i < tgt.length) :
    (i ∈ indexes_to_drop tgt n ↔ countOf tgt (tgt.get ⟨i, h⟩) < n)
  ∧ (∀ c : Int, c ∈ dropIdx tgt (indexes_to_drop tgt n) → n ≤ countOf tgt c)
  ∧ (∀ (α : Type) (xs : List α), dropIdx xs ([] : List Nat) = xs) := by
  refine ⟨mem_indexes_to_drop tgt n i h, ?_, ?_⟩
  · intro c hc
    obtain ⟨j, hj, hget, hnot⟩ := mem_dropIdxFrom hc
    rw [Nat.zero_add] at hnot
    have hge : ¬ countOf tgt (tgt.get ⟨j, hj⟩) < n :=
      fun hlt => hnot ((mem_indexes_to_drop tgt n j hj).mpr hlt)
    rw [hget] at hge
    omega
  · intro α xs
    exact dropIdxFrom_nil xs 0

theorem claim_C2_class_deficiency_witness :
    ((2 : Nat) ∈ indexes_to_drop [0, 0, 1] 2 ↔
      countOf [0, 0, 1] (([0, 0, 1] : List Int).get ⟨2, by decide⟩) < 2)
  ∧ (∀ c : Int, c ∈ dropIdx [0, 0, 1] (indexes_to_drop [0, 0, 1] 2) →
      2 ≤ countOf [0, 0, 1] c)
  ∧ (∀ (α : Type) (xs : List α), dropIdx xs ([] : List Nat) = xs) :=
  claim_C2_class_deficiency [0, 0, 1] 2 2 (by decide)

theorem pyIndex_mem {vals : List PValue} {v w : PValue}
    (h : pyIndex vals v = some w) : w ∈ vals := by
  unfold pyIndex at h
  cases v with
  | str s => simp only at h; cases h
  | real q => simp only at h; cases h
  | num n =>
      simp only at h
      split_ifs at h
      · exact List.get?_mem h
      · exact List.get?_mem h

theorem translateOne_spec (sp : SearchSpace) (pv w : String × PValue)
    (h : translateOne sp pv = some w) :
    w.1 = pv.1 ∧
    ∀ e, alistLookup sp pv.1 = some e →
      (((e.search = some "choice" ∨ e.search = Option.none) →
          ∀ vals, e.space = some vals →
            pyIndex vals pv.2 = some w.2 ∧ w.2 ∈ vals)
        ∧ (e.search = some "uniform" → w.2 = pv.2)) := by
  unfold translateOne at h
  cases hl : alistLookup sp pv.1 with
  | none => rw [hl] at h; simp only at h; cases h
  | some e =>
      rw [hl] at h
      simp only at h
      cases hs : e.search with
      | none =>
          rw [hs] at h
          simp only at h
          cases hsp : e.space with
          | none => rw [hsp] at h; simp only at h; cases h
          | some vals =>
              rw [hsp] at h
              simp only at h
              cases hpi : pyIndex vals pv.2 with
              | none => rw [hpi, Option.map_none'] at h; cases h
              | some u =>
                  rw [hpi, Option.map_some'] at h
                  injection h with h; subst h
                  refine ⟨rfl, ?_⟩
                  intro e2 he2
                  injection he2 with he2; subst he2
                  refine ⟨?_, ?_⟩
                  · intro _ vals2 hv2
                    rw [hsp] at hv2; injection hv2 with hv2; subst hv2
                    exact ⟨hpi, pyIndex_mem hpi⟩
                  · intro hu; rw [hs] at hu; cases hu
      | some s =>
          rw [hs] at h
          simp only at h
          by_cases hc : s = "choice"
          · subst hc
            rw [if_pos rfl] at h
            cases hsp : e.space with
            | none => rw [hsp] at h; simp only at h; cases h
            | some vals =>
                rw [hsp] at h
                simp only at h
                cases hpi : pyIndex vals pv.2 with
                | none => rw [hpi, Option.map_none'] at h; cases h
                | some u =>
                    rw [hpi, Option.map_some'] at h
                    injection h with h; subst h
                    refine ⟨rfl, ?_⟩
                    intro e2 he2
                    injection he2 with he2; subst he2
                    refine ⟨?_, ?_⟩
                    · intro _ vals2 hv2
                      rw [hsp] at hv2; injection hv2 with hv2; subst hv2
                      exact ⟨hpi, pyIndex_mem hpi⟩
                    · intro hu
                      rw [hs] at hu
                      exact absurd hu (by decide)
          · rw [if_neg hc] at h
            injection h with h; subst h
            refine ⟨rfl, ?_⟩
            intro e2 he2
            injection he2 with he2; subst he2
            refine ⟨?_, fun _ => rfl⟩
            intro hcn
            rw [hs] at hcn
            rcases hcn with hcn | hcn
            · injection hcn with hcn; exact absurd hcn hc
            · cases hcn

/-- C3: a successful run of the back-translation loop of lines 574-581
keeps every key, replaces the sampled value of every "choice" key — also
of every key with no declared "search" strategy, "choice" being the
default — by the element of the declared "space" list at that index
(so the translated value is one of the declared values), and passes the
value of every "uniform" key through unchanged. -/
theorem claim_C3_choice_translation (sp : SearchSpace)
    (best out : List (String × PValue))
    (hT : translateBest sp best = some out) :
    out.length = best.length ∧
    ∀ i (h1 : i < best.length) (h2 : i < out.length),
      (out.get ⟨i, h2⟩).1 = (best.get ⟨i, h1⟩).1 ∧
      ∀ e, alistLookup sp (best.get ⟨i, h1⟩).1 = some e →
        (((e.search = some "choice" ∨ e.search = Option.none) →
            ∀ vals, e.space = some vals →
              pyIndex vals (best.get ⟨i, h1⟩).2 = some (out.get ⟨i, h2⟩).2 ∧
              (out.get ⟨i, h2⟩).2 ∈ vals)
          ∧ (e.search = some "uniform" →
              (out.get ⟨i, h2⟩).2 = (best.get ⟨i, h1⟩).2)) := by
  induction best generalizing out with
  | nil =>
      unfold translateBest optionMap at hT
      injection hT with hT; subst hT
      exact ⟨rfl, fun i h1 => absurd h1 (by simp)⟩
  | cons a l ih =>
      unfold translateBest optionMap at hT
      cases hfa : translateOne sp a with
      | none => rw [hfa] at hT; cases hT
      | some b =>
          rw [hfa] at hT
          cases hfl : optionMap (translateOne sp) l with
          | none => rw [hfl] at hT; cases hT
          | some bs =>
              rw [hfl] at hT
              injection hT with hT; subst hT
              obtain ⟨hlen, hel⟩ := ih bs hfl
              refine ⟨by simp [hlen], ?_⟩
              intro i h1 h2
              cases i with
              | zero =>
                  obtain ⟨hb1, hb2⟩ := translateOne_spec sp a b hfa
                  exact ⟨hb1, hb2⟩
              | succ j =>
                  have hj1 : j < l.length := by simpa using h1
                  have hj2 : j < bs.length := by simpa using h2
                  exact hel j hj1 hj2

theorem claim_C3_choice_translation_witness :
    ([("est__max_depth", PValue.num 5)] : List (String × PValue)).length =
      ([("est__max_depth", PValue.num 1)] : List (String × PValue)).length
  ∧ PValue.num 5 ∈ [PValue.num 3, PValue.num 5, PValue.num 7] := by
  have h := claim_C3_choice_translation
    [("est__max_depth",
      { search := some "choice",
        space := some [PValue.num 3, PValue.num 5, PValue.num 7] })]
    [("est__max_depth", PValue.num 1)]
    [("est__max_depth", PValue.num 5)]
    (by rfl)
  refine ⟨h.1, ?_⟩
  exact (((h.2 0 (by decide) (by decide)).2
    { search := some "choice",
      space := some [PValue.num 3, PValue.num 5, PValue.num 7] } rfl).1
    (Or.inl rfl) [PValue.num 3, PValue.num 5, PValue.num 7] rfl).2

/-- C8: task inference is total over exactly the two dtype classes: an
integer target yields Classification with a stratified splitter, a float
target yields Regression with a plain splitter, and any other target
dtype makes `evaluate` raise the invalid-input error immediately, with
the optimiser untouched (no pipeline is built). -/
theorem claim_C8_task_inference :
    (∀ ys : List Int, taskOf (Target.ints ys) = Except.ok Task.classification)
  ∧ (∀ zs : List Rat, taskOf (Target.floats zs) = Except.ok Task.regression)
  ∧ cvStratified Task.classification = true
  ∧ cvStratified Task.regression = false
  ∧ (∀ (set_ok : List (String × Stage) → Params → Bool)
       (cvs : CVInput → Option (List Rat)) (self : Optimiser)
       (params : Option Params) (tr : List (List Rat)) (xs : List String),
       Optimiser.evaluate self set_ok cvs params ⟨tr, Target.strs xs⟩ =
         (Except.error EvalErr.invalidInput, self)) :=
  ⟨fun _ => rfl, fun _ => rfl, rfl, rfl, fun _ _ _ _ _ _ => rfl⟩

/-- C4: with a cross-validation that raises (modelled by `cvs` returning
None), `evaluate` still returns normally: the per-fold scores are
`n_folds` copies of negative infinity, the mean score is negative
infinity, and the failure condition of line 428 holds. -/
theorem claim_C4_cv_failure_sentinel
    (set_ok : List (String × Stage) → Params → Bool)
    (self : Optimiser) (params : Option Params) (df : Dataset) (tk : Task)
    (htask : taskOf df.target = Except.ok tk)
    (hfolds : 2 ≤ self.n_folds)
    (hset : ∀ ps, params = some ps → set_ok (buildPipe tk (some ps)) ps = true) :
    ∃ self2 : Optimiser,
      Optimiser.evaluate self set_ok (fun _ => Option.none) params df =
        (Except.ok { scores := List.replicate self.n_folds Score.negInf,
                     score := Score.negInf, failed := true }, self2) := by
  obtain ⟨tr, tgt⟩ := df
  cases tgt with
  | strs xs => cases htask
  | ints tgt =>
      have htk : tk = Task.classification := by
        simp [taskOf] at htask; exact htask.symm
      subst htk
      rcases params with _ | ps
      · simp only [Optimiser.evaluate]
        rw [if_neg (by omega)]
        exact ⟨_, rfl⟩
      · simp only [Optimiser.evaluate]
        rw [if_neg (by omega)]
        simp only [fitStep, hset ps rfl]
        exact ⟨_, rfl⟩
  | floats tgt =>
      have htk : tk = Task.regression := by
        simp [taskOf] at htask; exact htask.symm
      subst htk
      rcases params with _ | ps
      · simp only [Optimiser.evaluate]
        rw [if_neg (by omega)]
        exact ⟨_, rfl⟩
      · simp only [Optimiser.evaluate]
        rw [if_neg (by omega)]
        simp only [fitStep, hset ps rfl]
        exact ⟨_, rfl⟩

theorem claim_C4_cv_failure_sentinel_witness :
    ∃ self2 : Optimiser,
      Optimiser.evaluate ⟨Scoring.none, 2, 1, "save", true⟩ (fun _ _ => true)
        (fun _ => Option.none) Option.none ⟨[[1], [2]], Target.ints [0, 1]⟩ =
        (Except.ok { scores := List.replicate 2 Score.negInf,
                     score := Score.negInf, failed := true }, self2) :=
  claim_C4_cv_failure_sentinel (fun _ _ => true) ⟨Scoring.none, 2, 1, "save", true⟩
    Option.none ⟨[[1], [2]], Target.ints [0, 1]⟩ Task.classification rfl
    (by decide) (fun ps hps => by cases hps)

/-- C5: when applying a non-None candidate onto the assembled pipeline
fails (`set_params` raises, modelled by `set_ok` returning false),
`evaluate` raises the invalid-pipeline-parameters error of line 425
instead of producing a score; the error propagates and no sentinel score
is substituted. -/
theorem claim_C5_invalid_pipeline_params
    (set_ok : List (String × Stage) → Params → Bool)
    (cvs : CVInput → Option (List Rat))
    (self : Optimiser) (ps : Params) (df : Dataset) (tk : Task)
    (htask : taskOf df.target = Except.ok tk)
    (hfolds : 2 ≤ self.n_folds)
    (hfail : set_ok (buildPipe tk (some ps)) ps = false) :
    (Optimiser.evaluate self set_ok cvs (some ps) df).1 =
      Except.error EvalErr.invalidPipelineParams := by
  obtain ⟨tr, tgt⟩ := df
  cases tgt with
  | strs xs => cases htask
  | ints tgt =>
      have htk : tk = Task.classification := by
        simp [taskOf] at htask; exact htask.symm
      subst htk
      simp only [Optimiser.evaluate]
      rw [if_neg (by omega)]
      simp [fitStep, hfail]
  | floats tgt =>
      have htk : tk = Task.regression := by
        simp [taskOf] at htask; exact htask.symm
      subst htk
      simp only [Optimiser.evaluate]
      rw [if_neg (by omega)]
      simp [fitStep, hfail]

theorem claim_C5_invalid_pipeline_params_witness :
    (Optimiser.evaluate ⟨Scoring.none, 2, 1, "save", true⟩ (fun _ _ => false)
      (fun _ => Option.none) (some [("xx__a", PValue.num 1)])
      ⟨[[1], [2]], Target.ints [0, 1]⟩).1 =
      Except.error EvalErr.invalidPipelineParams :=
  claim_C5_invalid_pipeline_params (fun _ _ => false) (fun _ => Option.none)
    ⟨Scoring.none, 2, 1, "save", true⟩ [("xx__a", PValue.num 1)]
    ⟨[[1], [2]], Target.ints [0, 1]⟩ Task.classification rfl (by decide) rfl

/-- C7 counterexample: `evaluate` does mutate the optimiser's own
configuration. Starting from `scoring = None`, a classification call
rewrites `self.scoring` to 'log_loss' (line 215), so the field does not
hold its pre-call value. -/
theorem claim_C7_scoring_mutation_counterexample :
    (Optimiser.evaluate ⟨Scoring.none, 2, 1, "save", true⟩ (fun _ _ => true)
      (fun _ => Option.none) Option.none
      ⟨[[1], [2]], Target.ints [0, 1]⟩).2.scoring ≠ Scoring.none := by decide

/-- C7 amended: `evaluate` leaves `n_folds`, `random_state`, `to_path`
and `verbose` unchanged; only the `scoring` attribute may be rewritten by
the call. -/
theorem claim_C7_frame_amended
    (set_ok : List (String × Stage) → Params → Bool)
    (cvs : CVInput → Option (List Rat))
    (self : Optimiser) (params : Option Params) (df : Dataset) :
    ((Optimiser.evaluate self set_ok cvs params df).2.n_folds = self.n_folds)
  ∧ ((Optimiser.evaluate self set_ok cvs params df).2.random_state = self.random_state)
  ∧ ((Optimiser.evaluate self set_ok cvs params df).2.to_path = self.to_path)
  ∧ ((Optimiser.evaluate self set_ok cvs params df).2.verbose = self.verbose) := by
  obtain ⟨tr, tgt⟩ := df
  cases tgt <;>
    simp only [Optimiser.evaluate, fitStep] <;>
    first
      | (split_ifs <;> simp)
      | simp

theorem clf_fix1 (sc : Scoring) :
    (clfScoringUpdate (clfScoringUpdate sc).1).1 = (clfScoringUpdate sc).1 := by
  cases sc <;> simp only [clfScoringUpdate] <;> split_ifs <;> simp_all [clfList] <;> decide

theorem clf_auc_scorer (sc : Scoring) (h : (clfScoringUpdate sc).2 = true) :
    (clfScoringUpdate sc).1 = Scoring.aucScorer := by
  cases sc with
  | none => simp [clfScoringUpdate] at h
  | aucScorer => simp [clfScoringUpdate] at h
  | callable id => simp [clfScoringUpdate] at h
  | str s =>
      by_cases h1 : s = "roc_auc"
      · subst h1; rfl
      · exfalso
        simp only [clfScoringUpdate, if_neg h1] at h
        split_ifs at h <;> simp_all

theorem reg_fix (sc : Scoring) :
    regScoringUpdate (regScoringUpdate sc) = regScoringUpdate sc := by
  cases sc <;> simp only [regScoringUpdate] <;> split_ifs <;> simp_all [regList] <;> decide

theorem evaluate_ints_def (self : Optimiser)
    (set_ok : List (String × Stage) → Params → Bool)
    (cvs : CVInput → Option (List Rat))
    (params : Option Params) (tr : List (List Rat)) (tgt : List Int)
    (hf : ¬ self.n_folds < 2) :
    Optimiser.evaluate self set_ok cvs params ⟨tr, Target.ints tgt⟩ =
      fitStep { self with scoring := (clfScoringUpdate self.scoring).1 } set_ok cvs
        params (buildPipe Task.classification params)
        (dropIdx tr (indexes_to_drop tgt self.n_folds))
        (Target.ints (dropIdx tgt (indexes_to_drop tgt self.n_folds)))
        true (clfScoringUpdate self.scoring).2 := by
  simp [Optimiser.evaluate, hf, cvStratified]

theorem evaluate_floats_def (self : Optimiser)
    (set_ok : List (String × Stage) → Params → Bool)
    (cvs : CVInput → Option (List Rat))
    (params : Option Params) (tr : List (List Rat)) (tgt : List Rat)
    (hf : ¬ self.n_folds < 2) :
    Optimiser.evaluate self set_ok cvs params ⟨tr, Target.floats tgt⟩ =
      fitStep { self with scoring := regScoringUpdate self.scoring } set_ok cvs
        params (buildPipe Task.regression params)
        (dropIdx tr ([] : List Nat)) (Target.floats (dropIdx tgt ([] : List Nat)))
        false false := by
  simp [Optimiser.evaluate, hf, cvStratified]

theorem fitStep_snd (self1 : Optimiser)
    (set_ok : List (String × Stage) → Params → Bool)
    (cvs : CVInput → Option (List Rat))
    (params : Option Params) (pipe : List (String × Stage))
    (X : List (List Rat)) (y : Target) (strat auc : Bool) :
    (fitStep self1 set_ok cvs params pipe X y strat auc).2 =
      if ((match params with
           | Option.none => true
           | some ps => set_ok pipe ps) && auc) = true
      then { self1 with scoring := Scoring.str "roc_auc" } else self1 := by
  unfold fitStep
  rcases params with _ | ps
  · cases auc <;> simp
  · cases hok : set_ok pipe ps <;> cases auc <;> simp [hok]

theorem fitStep_fst_auc (self1 : Optimiser)
    (set_ok : List (String × Stage) → Params → Bool)
    (cvs : CVInput → Option (List Rat))
    (params : Option Params) (pipe : List (String × Stage))
    (X : List (List Rat)) (y : Target) (strat : Bool) (a b : Bool) :
    (fitStep self1 set_ok cvs params pipe X y strat a).1 =
      (fitStep self1 set_ok cvs params pipe X y strat b).1 := by
  unfold fitStep
  rcases params with _ | ps
  · simp
  · cases hok : set_ok pipe ps <;> simp [hok]

/-- C9: evaluation is deterministic and idempotent across the scoring
mutation: a second `evaluate` call with the same candidate, the same
dataset and the same configuration — the external splitter being seeded
by the unchanged `random_state` and the externals `set_ok`/`cvs` being
fixed functions of their inputs — returns the same outcome, in
particular the identical mean score. -/
theorem claim_C9_evaluate_deterministic
    (set_ok : List (String × Stage) → Params → Bool)
    (cvs : CVInput → Option (List Rat))
    (self : Optimiser) (params : Option Params) (df : Dataset) :
    (Optimiser.evaluate (Optimiser.evaluate self set_ok cvs params df).2
        set_ok cvs params df).1
      = (Optimiser.evaluate self set_ok cvs params df).1 := by
  obtain ⟨sc, nf, rs, tp, vb⟩ := self
  obtain ⟨tr, tgt⟩ := df
  cases tgt with
  | strs xs => rfl
  | ints tgt =>
      by_cases hf : nf < 2
      · simp [Optimiser.evaluate, hf]
      · rw [evaluate_ints_def ⟨sc, nf, rs, tp, vb⟩ set_ok cvs params tr tgt hf]
        rw [fitStep_snd]
        cases hb : ((match params with
            | Option.none => true
            | some ps => set_ok (buildPipe Task.classification params) ps)
            && (clfScoringUpdate sc).2) with
        | true =>
            rw [if_pos rfl]
            rw [evaluate_ints_def ⟨Scoring.str "roc_auc", nf, rs, tp, vb⟩
              set_ok cvs params tr tgt hf]
            have h2 : (clfScoringUpdate sc).2 = true := by
              cases hcs : (clfScoringUpdate sc).2
              · rw [hcs, Bool.and_false] at hb
                exact absurd hb (by simp)
              · rfl
            have h1 : (clfScoringUpdate sc).1 = Scoring.aucScorer := clf_auc_scorer sc h2
            have hroc : clfScoringUpdate (Scoring.str "roc_auc") =
                (Scoring.aucScorer, true) := rfl
            rw [hroc, h1]
            exact fitStep_fst_auc _ _ _ _ _ _ _ _ _ _
        | false =>
            rw [if_neg (by simp)]
            rw [evaluate_ints_def ⟨(clfScoringUpdate sc).1, nf, rs, tp, vb⟩
              set_ok cvs params tr tgt hf]
            rw [clf_fix1]
            exact fitStep_fst_auc _ _ _ _ _ _ _ _ _ _
  | floats tgt =>
      by_cases hf : nf < 2
      · simp [Optimiser.evaluate, hf]
      · rw [evaluate_floats_def ⟨sc, nf, rs, tp, vb⟩ set_ok cvs params tr tgt hf]
        rw [fitStep_snd]
        simp only [Bool.and_false, Bool.false_eq_true, if_false]
        rw [evaluate_floats_def ⟨regScoringUpdate sc, nf, rs, tp, vb⟩
          set_ok cvs params tr tgt hf]
        rw [reg_fix]

theorem claim_C1_needs_caching_witness :
    cacheFlag (some [("ce__strategy", PValue.str "entity_embedding")]) = true :=
  (claim_C1_needs_caching (some [("ce__strategy", PValue.str "entity_embedding")])).mpr
    (Or.inl ⟨[("ce__strategy", PValue.str "entity_embedding")], rfl, by decide⟩)

theorem claim_C7_frame_amended_witness :
    ((Optimiser.evaluate ⟨Scoring.none, 2, 1, "save", true⟩ (fun _ _ => true)
        (fun _ => Option.none) Option.none
        ⟨[[1], [2]], Target.ints [0, 1]⟩).2.n_folds = 2)
  ∧ ((Optimiser.evaluate ⟨Scoring.none, 2, 1, "save", true⟩ (fun _ _ => true)
        (fun _ => Option.none) Option.none
        ⟨[[1], [2]], Target.ints [0, 1]⟩).2.random_state = 1)
  ∧ ((Optimiser.evaluate ⟨Scoring.none, 2, 1, "save", true⟩ (fun _ _ => true)
        (fun _ => Option.none) Option.none
        ⟨[[1], [2]], Target.ints [0, 1]⟩).2.to_path = "save")
  ∧ ((Optimiser.evaluate ⟨Scoring.none, 2, 1, "save", true⟩ (fun _ _ => true)
        (fun _ => Option.none) Option.none
        ⟨[[1], [2]], Target.ints [0, 1]⟩).2.verbose = true) :=
  claim_C7_frame_amended (fun _ _ => true) (fun _ => Option.none)
    ⟨Scoring.none, 2, 1, "save", true⟩ Option.none ⟨[[1], [2]], Target.ints [0, 1]⟩

theorem claim_C9_evaluate_deterministic_witness :
    (Optimiser.evaluate
        (Optimiser.evaluate ⟨Scoring.str "roc_auc", 2, 1, "save", true⟩
          (fun _ _ => true) (fun _ => some [1, 0]) Option.none
          ⟨[[1], [2]], Target.ints [0, 1]⟩).2
        (fun _ _ => true) (fun _ => some [1, 0]) Option.none
        ⟨[[1], [2]], Target.ints [0, 1]⟩).1
      = (Optimiser.evaluate ⟨Scoring.str "roc_auc", 2, 1, "save", true⟩
          (fun _ _ => true) (fun _ => some [1, 0]) Option.none
          ⟨[[1], [2]], Target.ints [0, 1]⟩).1 :=
  claim_C9_evaluate_deterministic (fun _ _ => true) (fun _ => some [1, 0])
    ⟨Scoring.str "roc_auc", 2, 1, "save", true⟩ Option.none
    ⟨[[1], [2]], Target.ints [0, 1]⟩

end MLBox
